import Mathlib

/-!
# BioAmp-Filter-Designer: verification of the generated filter artifact

Shallow embedding of the repository's generated streaming-filter artifact
`src/my_filter.py` (class `MyFilter`: a 4th-order Butterworth lowpass at
500 Hz sampling rate and 50 Hz cutoff, realized as two cascaded biquad
sections in direct form II), and of the file-extension lookup of
`src/GUI.py` (`ModernFilterGUI.get_file_extension`).

Python float literals are embedded as their exact rational values; the
recursion is carried out over `ℚ`.
-/

/-! ## The generated artifact `my_filter.py`

`MyFilter.__init__` (lines 7-12) creates exactly the four state attributes
`z1_0, z2_0, z1_1, z2_1`, each initialized to `0.0`; these are the only
attributes the class ever has. -/

structure MyFilter where
  z1_0 : ℚ
  z2_0 : ℚ
  z1_1 : ℚ
  z2_1 : ℚ
deriving DecidableEq, Repr

/-- `MyFilter.__init__`: all four state registers start at zero. -/
def MyFilter.init : MyFilter :=
  { z1_0 := 0.0, z2_0 := 0.0, z1_1 := 0.0, z2_1 := 0.0 }

/-- `MyFilter.process` (my_filter.py lines 14-30), transcribed statement by
statement; the returned pair is the mutated instance together with the value
of the final `return output`. -/
def MyFilter.process (self : MyFilter) (input_sample : ℚ) : MyFilter × ℚ :=
  let output := input_sample
  -- Biquad section 0
  let x := output - (-1.04859958 * self.z1_0) - (0.29614036 * self.z2_0)
  let output := 0.00482434 * x + 0.00964869 * self.z1_0 + 0.00482434 * self.z2_0
  let z2_0 := self.z1_0
  let z1_0 := x
  -- Biquad section 1
  let x := output - (-1.32091343 * self.z1_1) - (0.63273879 * self.z2_1)
  let output := 1.00000000 * x + 2.00000000 * self.z1_1 + 1.00000000 * self.z2_1
  let z2_1 := self.z1_1
  let z1_1 := x
  ({ z1_0 := z1_0, z2_0 := z2_0, z1_1 := z1_1, z2_1 := z2_1 }, output)

/-- `MyFilter.reset` (my_filter.py lines 32-37): zero all four state
registers.  The coefficients are literals inside `process`, not attributes,
so no operation can touch them. -/
def MyFilter.reset (_self : MyFilter) : MyFilter :=
  { z1_0 := 0.0, z2_0 := 0.0, z1_1 := 0.0, z2_1 := 0.0 }

/-- Feed a list of samples one by one through `process`; returns the final
instance state and the list of outputs. -/
def MyFilter.run : MyFilter → List ℚ → MyFilter × List ℚ
  | f, [] => (f, [])
  | f, u :: us =>
    let step := f.process u
    let rest := step.1.run us
    (rest.1, step.2 :: rest.2)

/-- The output sequence produced by an instance on an input sequence. -/
def MyFilter.outputs (f : MyFilter) (us : List ℚ) : List ℚ :=
  (f.run us).2

/-! ## The spec's cascade runtime contract (spec §3, §4.5)

Second definitions, following the specification's words, used to state the
refinement claims about `MyFilter.process`. -/

/-- Spec §3: a second-order section's coefficients `{b0,b1,b2,a1,a2}`
(`a0` implicitly 1). -/
structure Biquad where
  b0 : ℚ
  b1 : ℚ
  b2 : ℚ
  a1 : ℚ
  a2 : ℚ
deriving DecidableEq, Repr

/-- Spec §3: a section's two runtime state registers `z1, z2`. -/
structure BState where
  z1 : ℚ
  z2 : ℚ
deriving DecidableEq, Repr

/-- Spec §4.5: one section's step — `x = input − a1·z1 − a2·z2`,
`output = b0·x + b1·z1 + b2·z2`, then the shift `z2 ← z1; z1 ← x`. -/
def biquadStep (c : Biquad) (st : BState) (input : ℚ) : BState × ℚ :=
  let x := input - c.a1 * st.z1 - c.a2 * st.z2
  let output := c.b0 * x + c.b1 * st.z1 + c.b2 * st.z2
  ({ z1 := x, z2 := st.z1 }, output)

/-- Spec §4.5: apply each section in cascade order, each section's input
being the previous section's output; the final section's output is the
overall result. -/
def cascadeRun : List (Biquad × BState) → ℚ → List BState × ℚ
  | [], input => ([], input)
  | (c, st) :: rest, input =>
    let s := biquadStep c st input
    let r := cascadeRun rest s.2
    (s.1 :: r.1, r.2)

/-- The coefficients of biquad section 0 as embedded in
`my_filter.py` lines 19-20. -/
def section0 : Biquad :=
  { b0 := 0.00482434, b1 := 0.00964869, b2 := 0.00482434
    a1 := -1.04859958, a2 := 0.29614036 }

/-- The coefficients of biquad section 1 as embedded in
`my_filter.py` lines 25-26. -/
def section1 : Biquad :=
  { b0 := 1.00000000, b1 := 2.00000000, b2 := 1.00000000
    a1 := -1.32091343, a2 := 0.63273879 }

/-- The artifact's cascade, in the order the sections appear in `process`. -/
def myCascade : List Biquad := [section0, section1]

/-- The artifact's state registers, grouped per section in cascade order. -/
def MyFilter.states (f : MyFilter) : List BState :=
  [{ z1 := f.z1_0, z2 := f.z2_0 }, { z1 := f.z1_1, z2 := f.z2_1 }]

/-- Refinement: `MyFilter.process` is exactly one pass of the spec's cascade
recursion over `myCascade`, both in the state it leaves behind and in the
returned output. -/
lemma process_eq_cascadeRun (f : MyFilter) (u : ℚ) :
    cascadeRun (myCascade.zip f.states) u
      = ((f.process u).1.states, (f.process u).2) := by
  simp only [myCascade, MyFilter.states, List.zip, List.zipWith, cascadeRun,
    biquadStep, MyFilter.process, section0, section1]

/-! ## Multi-channel use (my_filter.py lines 46-50, spec §5)

One independent `MyFilter` instance per channel, driven in an arbitrary
interleaving.  A bank of channels is a map from channel index to instance
state; a schedule is the list of `(channel, input_sample)` calls in the
order they are issued. -/

/-- Issue `process` on the instance of channel `i` with sample `u`: only the
entry `i` of the bank is replaced. -/
def stepChannel (bank : ℕ → MyFilter) (i : ℕ) (u : ℚ) : (ℕ → MyFilter) × ℚ :=
  (Function.update bank i ((bank i).process u).1, ((bank i).process u).2)

/-- Run a whole interleaved schedule; outputs are tagged with the channel
that produced them. -/
def runSchedule : (ℕ → MyFilter) → List (ℕ × ℚ) → (ℕ → MyFilter) × List (ℕ × ℚ)
  | bank, [] => (bank, [])
  | bank, (i, u) :: rest =>
    let s := stepChannel bank i u
    let r := runSchedule s.1 rest
    (r.1, (i, s.2) :: r.2)

/-- The subsequence of a tagged list belonging to channel `i`. -/
def channelTrace (i : ℕ) (tagged : List (ℕ × ℚ)) : List ℚ :=
  (tagged.filter (fun p => p.1 = i)).map Prod.snd

/-! ## Coefficients, poles and DC gain of the artifact -/

/-- Section DC gain `(b0+b1+b2)/(1+a1+a2)` in exact rational arithmetic. -/
def sectionDCGain (c : Biquad) : ℚ :=
  (c.b0 + c.b1 + c.b2) / (1 + c.a1 + c.a2)

/-- The cascade's DC gain: the product of the sections' DC gains. -/
def dcGain : ℚ := sectionDCGain section0 * sectionDCGain section1

/-- Steady state of section 0 under constant unit input. -/
def x0DC : ℚ := 1 / (1 + section0.a1 + section0.a2)

/-- Steady state of section 1 under the section-0 steady output. -/
def x1DC : ℚ := sectionDCGain section0 / (1 + section1.a1 + section1.a2)

/-- The artifact's fixed-point state under constant unit input. -/
def stDC : MyFilter := { z1_0 := x0DC, z2_0 := x0DC, z1_1 := x1DC, z2_1 := x1DC }

/-! ## Section count (spec §3, §8)

The generator (`filter_gen.py`) is not part of the sources; only its
generated order-4 lowpass artifact is.  The section-count rule is therefore
modelled from the spec. -/

/-- The four recognized filter families (spec §3). -/
inductive FilterFamily where
  | lowpass
  | highpass
  | bandpass
  | bandstop
deriving DecidableEq, Repr

/-- Modelled from the spec: `filter_gen.py` (the design kernel) is absent
from the sources; spec §8 — "for lowpass/highpass, section count =
`ceil(order/2)`; for bandpass/bandstop, section count = `order`".
`(order + 1) / 2` is `⌈order/2⌉` in natural-number arithmetic. -/
def sectionCount : FilterFamily → ℕ → ℕ
  | .lowpass, order => (order + 1) / 2
  | .highpass, order => (order + 1) / 2
  | .bandpass, order => order
  | .bandstop, order => order

/-! ## The GUI's file-extension lookup (GUI.py lines 642-652) -/

/-- The extension table of `ModernFilterGUI.get_file_extension`. -/
def extensions : List (String × String) :=
  [("python", ".py"), ("javascript", ".js"), ("typescript", ".ts"),
   ("c++", ".cpp"), ("java", ".java")]

/-- `ModernFilterGUI.get_file_extension`: `extensions.get(language, '.py')` —
a lookup whose default is `'.py'`. -/
def get_file_extension (language : String) : String :=
  (extensions.lookup language).getD ".py"

/-- The languages offered by the GUI's combobox (GUI.py line 538). -/
def recognizedLanguages : List String :=
  ["python", "javascript", "typescript", "c++", "java"]

/-! ## Shared lemmas -/

/-- `(order + 1) / 2` in natural-number arithmetic is `⌈order/2⌉`. -/
lemma add_one_div_two_eq_ceil (n : ℕ) : (n + 1) / 2 = ⌈(n : ℚ) / 2⌉₊ := by
  rcases n with _ | m
  · simp
  · obtain ⟨k, hk, hk1, hk2⟩ :
        ∃ k, (m + 1 + 1) / 2 = k ∧ m + 1 ≤ 2 * k ∧ 2 * k ≤ m + 2 :=
      ⟨_, rfl, by omega, by omega⟩
    rw [hk]
    symm
    rw [Nat.ceil_eq_iff (show k ≠ 0 by omega)]
    have h1 : ((m : ℚ) + 1) ≤ 2 * k := by exact_mod_cast hk1
    have h2 : (2 * (k : ℚ)) ≤ m + 2 := by exact_mod_cast hk2
    constructor
    · rw [Nat.cast_sub (show 1 ≤ k by omega), lt_div_iff₀ (show (0:ℚ) < 2 by norm_num)]
      push_cast
      linarith
    · rw [div_le_iff₀ (show (0:ℚ) < 2 by norm_num)]
      push_cast
      linarith

/-- A monic real quadratic `z² + p·z + q` with negative discriminant and
`q < 1` has all its complex roots strictly inside the unit circle (the root
pair is conjugate, so each root's squared magnitude is the constant
coefficient `q`). -/
lemma quadratic_root_abs_lt_one (p q : ℝ) (hd : p ^ 2 - 4 * q < 0) (hq : q < 1)
    (z : ℂ) (hz : z ^ 2 + (p : ℂ) * z + (q : ℂ) = 0) : Complex.abs z < 1 := by
  have hre := congrArg Complex.re hz
  have him := congrArg Complex.im hz
  simp only [Complex.add_re, Complex.add_im, Complex.mul_re, Complex.mul_im,
    Complex.ofReal_re, Complex.ofReal_im, Complex.zero_re, Complex.zero_im,
    pow_two] at hre him
  have hns : Complex.normSq z = q := by
    have him' : z.im * (2 * z.re + p) = 0 := by linarith [him]
    rcases mul_eq_zero.mp him' with hy | hx
    · exfalso
      nlinarith [hre, sq_nonneg (2 * z.re + p)]
    · have hpx : (2 * z.re + p) * z.re = 0 := by rw [hx]; ring
      have hval : z.re * z.re + z.im * z.im = q := by nlinarith [hre, hpx]
      simpa [Complex.normSq_apply] using hval
  have habs : Complex.abs z ^ 2 = q := by
    rw [Complex.sq_abs, hns]
  by_contra hcon
  push_neg at hcon
  nlinarith [Complex.abs.nonneg z]

/-- The explicit point `−p/2 + i·√(q − p²/4)` is a root of `z² + p·z + q`
whenever `q − p²/4 ≥ 0`. -/
lemma conj_root_eval (p q : ℝ) (h : 0 ≤ q - p ^ 2 / 4) :
    (⟨-p / 2, Real.sqrt (q - p ^ 2 / 4)⟩ : ℂ) ^ 2
      + (p : ℂ) * ⟨-p / 2, Real.sqrt (q - p ^ 2 / 4)⟩ + (q : ℂ) = 0 := by
  set y := Real.sqrt (q - p ^ 2 / 4) with hy
  have hsq : y * y = q - p ^ 2 / 4 := Real.mul_self_sqrt h
  apply Complex.ext
  · simp only [Complex.add_re, Complex.mul_re, Complex.ofReal_re, Complex.ofReal_im,
      Complex.zero_re, pow_two]
    nlinarith [hsq]
  · simp only [Complex.add_im, Complex.mul_im, Complex.ofReal_re, Complex.ofReal_im,
      Complex.zero_im, pow_two]
    ring

/-! ## Claim theorems -/

/-- C1: the generated artifact for `family=lowpass, rate=500.0, order=4,
freq=50.0` reproduces the spec's reference cascade: `process` is one pass of
the cascade recursion over `myCascade`; section 0 has numerator coefficients
`b0=0.00482434, b1=0.00964869, b2=0.00482434` and its recursion computes
`x = input + 1.04859958·z1 − 0.29614036·z2`; section 1 has `b0=1, b1=2, b2=1`
and recursion `x = input + 1.32091343·z1 − 0.63273879·z2`; every coefficient
within tolerance `1e-6` of the spec's reference value (here: exactly). -/
theorem c1_reference_reproduction :
    (∀ (f : MyFilter) (u : ℚ),
      cascadeRun (myCascade.zip f.states) u
        = ((f.process u).1.states, (f.process u).2))
    ∧ |section0.b0 - 0.00482434| ≤ 1e-6
    ∧ |section0.b1 - 0.00964869| ≤ 1e-6
    ∧ |section0.b2 - 0.00482434| ≤ 1e-6
    ∧ |section1.b0 - 1| ≤ 1e-6
    ∧ |section1.b1 - 2| ≤ 1e-6
    ∧ |section1.b2 - 1| ≤ 1e-6
    ∧ (∀ (st : BState) (u : ℚ),
        |(biquadStep section0 st u).1.z1
          - (u + 1.04859958 * st.z1 - 0.29614036 * st.z2)| ≤ 1e-6)
    ∧ (∀ (st : BState) (u : ℚ),
        |(biquadStep section1 st u).1.z1
          - (u + 1.32091343 * st.z1 - 0.63273879 * st.z2)| ≤ 1e-6) := by
  refine ⟨process_eq_cascadeRun, ?_, ?_, ?_, ?_, ?_, ?_, ?_, ?_⟩
  · norm_num [section0]
  · norm_num [section0]
  · norm_num [section0]
  · norm_num [section1]
  · norm_num [section1]
  · norm_num [section1]
  · intro st u
    have h : (biquadStep section0 st u).1.z1
        = u + 1.04859958 * st.z1 - 0.29614036 * st.z2 := by
      simp only [biquadStep, section0]
      ring
    rw [h, sub_self, abs_zero]
    norm_num
  · intro st u
    have h : (biquadStep section1 st u).1.z1
        = u + 1.32091343 * st.z1 - 0.63273879 * st.z2 := by
      simp only [biquadStep, section1]
      ring
    rw [h, sub_self, abs_zero]
    norm_num

/-- C2: for every input sample and every state of the state registers, one
call to `process` applies to each section, in cascade order, exactly the
direct-form-II recursion `x = input − a1·z1 − a2·z2`,
`output = b0·x + b1·z1 + b2·z2`, then `z2 ← z1; z1 ← x`, each section's
input being the previous section's output, and returns the final section's
output. -/
theorem c2_direct_form_II (f : MyFilter) (u : ℚ) :
    cascadeRun (myCascade.zip f.states) u
      = ((f.process u).1.states, (f.process u).2) :=
  process_eq_cascadeRun f u

/-- C3: `reset` zeroes every state register (coefficients are literals in
`process`, untouched by construction), so a reset instance is the freshly
constructed instance, and replaying any input sequence after `reset`
reproduces a fresh instance's output sequence. -/
theorem c3_reset_idempotence (f : MyFilter) (us : List ℚ) :
    f.reset = MyFilter.init ∧ (f.reset).outputs us = MyFilter.init.outputs us :=
  ⟨rfl, rfl⟩

/-- C4: determinism — two independently constructed instances (each in the
constructor-zeroed state) fed the same input sequence produce identical
output sequences. -/
theorem c4_determinism (A B : MyFilter) (us : List ℚ)
    (hA : A = MyFilter.init) (hB : B = MyFilter.init) :
    A.outputs us = B.outputs us := by
  rw [hA, hB]

theorem c4_determinism_witness :
    MyFilter.init.outputs [1, 2, 3] = MyFilter.init.outputs [1, 2, 3] :=
  c4_determinism MyFilter.init MyFilter.init [1, 2, 3] rfl rfl

/-- C5: distinct filter instances own disjoint state.  For any bank of
per-channel instances and any interleaved schedule of `process` calls,
each channel's final state and output subsequence equal those obtained by
driving that channel's instance alone on its own input subsequence; in
particular a call on one channel never reads or modifies another channel's
registers. -/
theorem c5_channel_independence (bank : ℕ → MyFilter) (sched : List (ℕ × ℚ))
    (i : ℕ) :
    (runSchedule bank sched).1 i = ((bank i).run (channelTrace i sched)).1
    ∧ channelTrace i (runSchedule bank sched).2
        = (bank i).outputs (channelTrace i sched) := by
  induction sched generalizing bank with
  | nil => exact ⟨rfl, rfl⟩
  | cons p rest ih =>
    obtain ⟨j, u⟩ := p
    by_cases hji : j = i
    · subst hji
      have htr : channelTrace j ((j, u) :: rest) = u :: channelTrace j rest := by
        simp [channelTrace]
      obtain ⟨ih1, ih2⟩ := ih (Function.update bank j ((bank j).process u).1)
      refine ⟨?_, ?_⟩
      · simp only [runSchedule, stepChannel, htr, MyFilter.run]
        rw [ih1, Function.update_same]
      · simp only [runSchedule, stepChannel, htr, MyFilter.outputs, MyFilter.run]
        have htr2 : channelTrace j ((j, ((bank j).process u).2)
            :: (runSchedule (Function.update bank j ((bank j).process u).1) rest).2)
            = ((bank j).process u).2
              :: channelTrace j
                  (runSchedule (Function.update bank j ((bank j).process u).1) rest).2 := by
          simp [channelTrace]
        rw [htr2, ih2, Function.update_same]
        rfl
    · have htr : channelTrace i ((j, u) :: rest) = channelTrace i rest := by
        simp [channelTrace, hji]
      obtain ⟨ih1, ih2⟩ := ih (Function.update bank j ((bank j).process u).1)
      refine ⟨?_, ?_⟩
      · simp only [runSchedule, stepChannel, htr]
        rw [ih1, Function.update_noteq (Ne.symm hji)]
      · simp only [runSchedule, stepChannel, htr]
        have htr2 : channelTrace i ((j, ((bank j).process u).2)
            :: (runSchedule (Function.update bank j ((bank j).process u).1) rest).2)
            = channelTrace i
                (runSchedule (Function.update bank j ((bank j).process u).1) rest).2 := by
          simp [channelTrace, hji]
        rw [htr2, ih2, Function.update_noteq (Ne.symm hji)]

/-- C6: every second-order section of the cascade is stable — every complex
root of `z² + a1·z + a2`, with `a1, a2` the exact rational values of the
literals embedded in `process`, has magnitude strictly less than 1. -/
theorem c6_section_stability :
    (∀ z : ℂ, z ^ 2 + (section0.a1 : ℂ) * z + (section0.a2 : ℂ) = 0 →
      Complex.abs z < 1)
    ∧ (∀ z : ℂ, z ^ 2 + (section1.a1 : ℂ) * z + (section1.a2 : ℂ) = 0 →
      Complex.abs z < 1) := by
  constructor
  · intro z hz
    refine quadratic_root_abs_lt_one ((section0.a1 : ℝ)) ((section0.a2 : ℝ)) ?_ ?_ z ?_
    · have h : ((section0.a1 : ℚ)) ^ 2 - 4 * (section0.a2 : ℚ) < 0 := by
        norm_num [section0]
      exact_mod_cast h
    · have h : ((section0.a2 : ℚ)) < 1 := by norm_num [section0]
      exact_mod_cast h
    · push_cast
      exact_mod_cast hz
  · intro z hz
    refine quadratic_root_abs_lt_one ((section1.a1 : ℝ)) ((section1.a2 : ℝ)) ?_ ?_ z ?_
    · have h : ((section1.a1 : ℚ)) ^ 2 - 4 * (section1.a2 : ℚ) < 0 := by
        norm_num [section1]
      exact_mod_cast h
    · have h : ((section1.a2 : ℚ)) < 1 := by norm_num [section1]
      exact_mod_cast h
    · push_cast
      exact_mod_cast hz

theorem c6_section_stability_witness :
    Complex.abs ⟨-((section0.a1 : ℝ)) / 2,
      Real.sqrt ((section0.a2 : ℝ) - (section0.a1 : ℝ) ^ 2 / 4)⟩ < 1 := by
  apply c6_section_stability.1
  have h0 : (0 : ℝ) ≤ (section0.a2 : ℝ) - (section0.a1 : ℝ) ^ 2 / 4 := by
    have h : (0 : ℚ) ≤ (section0.a2 : ℚ) - (section0.a1 : ℚ) ^ 2 / 4 := by
      norm_num [section0]
    exact_mod_cast h
  have heval := conj_root_eval ((section0.a1 : ℝ)) ((section0.a2 : ℝ)) h0
  rw [Complex.ofReal_ratCast, Complex.ofReal_ratCast] at heval
  exact heval

/-- C7: DC gain of the lowpass artifact is unity within `1e-3`: the state
`stDC` is a fixed point of `process` under constant unit input whose output
is `dcGain = ∏ (b0+b1+b2)/(1+a1+a2)`, and `|dcGain − 1| ≤ 1e-3` in exact
rational arithmetic. -/
theorem c7_dc_gain_unity :
    MyFilter.process stDC 1 = (stDC, dcGain) ∧ |dcGain - 1| ≤ 1e-3 := by
  constructor
  · simp only [MyFilter.process, stDC, x0DC, x1DC, dcGain, sectionDCGain,
      section0, section1, Prod.mk.injEq, MyFilter.mk.injEq]
    norm_num
  · rw [abs_le]
    constructor <;> norm_num [dcGain, sectionDCGain, section0, section1]

/-- C8: for lowpass/highpass the cascade has exactly `⌈order/2⌉` sections;
the order-4 lowpass artifact has exactly 2 biquad sections, each with its
own pair of state registers. -/
theorem c8_section_count :
    (∀ order : ℕ,
      sectionCount .lowpass order = ⌈(order : ℚ) / 2⌉₊
      ∧ sectionCount .highpass order = ⌈(order : ℚ) / 2⌉₊)
    ∧ myCascade.length = sectionCount .lowpass 4
    ∧ myCascade.length = 2
    ∧ (∀ f : MyFilter, f.states.length = 2) := by
  refine ⟨fun order => ⟨add_one_div_two_eq_ceil order, add_one_div_two_eq_ceil order⟩,
    rfl, rfl, fun f => rfl⟩

/-- C9: the claim that an unsupported `target_language` never silently maps
to `'.py'` fails on the code: `get_file_extension` returns the default
`'.py'` for the unrecognized token `"ruby"`. -/
theorem c9_silent_py_fallback :
    get_file_extension "ruby" = ".py" ∧ "ruby" ∉ recognizedLanguages := by
  exact ⟨rfl, by decide⟩

/-- C10: one call to `process` yields exactly the state whose four registers
are the documented updates (`z2 ← z1`, `z1 ← x`, per section) and nothing
else; a `MyFilter` instance consists of exactly the four attributes
`z1_0, z2_0, z1_1, z2_1`, so no operation can alter a coefficient. -/
theorem c10_process_frame (f : MyFilter) (u : ℚ) :
    ((f.process u).1
      = { z1_0 := u - (-1.04859958 * f.z1_0) - (0.29614036 * f.z2_0)
          z2_0 := f.z1_0
          z1_1 := (0.00482434 * (u - (-1.04859958 * f.z1_0) - (0.29614036 * f.z2_0))
                    + 0.00964869 * f.z1_0 + 0.00482434 * f.z2_0)
                  - (-1.32091343 * f.z1_1) - (0.63273879 * f.z2_1)
          z2_1 := f.z1_1 })
    ∧ (∀ s t : MyFilter,
        s = t ↔ s.z1_0 = t.z1_0 ∧ s.z2_0 = t.z2_0 ∧ s.z1_1 = t.z1_1 ∧ s.z2_1 = t.z2_1) := by
  constructor
  · rfl
  · intro s t
    cases s
    cases t
    simp [MyFilter.mk.injEq]

